import Mathlib
/-!
# Client-side data layer of the AI Pet Guru web app — shallow embedding

This file embeds, in Lean, the client-side data-synchronization layer of the
pet-care web application: the vaccine planner in its local-storage fallback
variant (`src/pages/Vaccines/Vaccines.jsx`, localStorage version) and its
per-user Firestore variant, the health-log page (`src/pages/health/Health.jsx`),
and the lost/found report search (`Lost.jsx`, Firestore version).

Modelling conventions:
* JavaScript strings are Lean `String`s (lists of scalar values).
* Timestamps (`Date` values, Firestore `Timestamp.toMillis`) are `Nat`
  milliseconds; `new Date(string)` parsing is kept abstract as a parameter
  where the code orders by a parsed date.
* `Array.prototype.sort` is a stable sort and is modelled by `stableSortBy`.
* Firestore queries (`where`/`orderBy`/`limit`) are modelled as
  filter / stable sort / take over the list of documents of a collection.
* The blocking `confirm(...)` prompt and the success/failure of a remote call
  are oracle parameters of the handler being modelled.
-/
/-! ## JavaScript string primitives

`String.prototype.trim` removes leading/trailing JS whitespace;
`String.prototype.toLowerCase` lower-cases (modelled on the ASCII range,
which is the only range the app's comparisons rely on). -/
/-- JS `WhiteSpace`/`LineTerminator` characters (the set relevant here:
TAB, LF, VT, FF, CR, SP, NBSP, and the BOM). -/
def isJsWhitespace (c : Char) : Bool :=
  c.toNat = 9 || c.toNat = 10 || c.toNat = 11 || c.toNat = 12 ||
  c.toNat = 13 || c.toNat = 32 || c.toNat = 160 || c.toNat = 65279
/-- JS `s.trim()`. -/
def jsTrim (s : String) : String :=
  String.mk (((s.data.dropWhile isJsWhitespace).reverse.dropWhile isJsWhitespace).reverse)
/-- JS `s.toLowerCase()` (ASCII). -/
def jsToLower (s : String) : String :=
  String.mk (s.data.map Char.toLower)
/-! ## A stable sort that evaluates

`Array.prototype.sort` is required to be stable; for a comparator that
induces a total preorder (every comparator used in this app compares `Nat`
keys), the output of a stable sort is uniquely determined, so any stable
sorting algorithm is a faithful model. Insertion sort is used because it is
structurally recursive and therefore evaluates by kernel reduction. -/
/-- Insert `a` into `l` before the first element `b` with `le a b`. -/
def sInsert (le : α → α → Bool) (a : α) : List α → List α
  | [] => [a]
  | b :: l => if le a b then a :: b :: l else b :: sInsert le a l
/-- Stable insertion sort by the comparator `le`. -/
def stableSortBy (le : α → α → Bool) : List α → List α
  | [] => []
  | x :: xs => sInsert le x (stableSortBy le xs)
/-! ## Vaccine planner, local-storage fallback variant

`Vaccines.jsx` (localStorage version): an `entries` array in component state,
hydrated from `localStorage` by a lazy initializer and written back in full by
a `useEffect` on every change. -/
/-- One vaccine entry of the fallback variant, exactly the object literal
built at `Vaccines.jsx:87-94` (`id`, `name`, `dueDate`, `notes`, `done`,
`createdAt`; the date fields are ISO strings). -/
structure Entry where
  id : String
  name : String
  dueDate : String
  notes : String
  done : Bool
  createdAt : String
  deriving Repr, DecidableEq
/-- The input form state `{ name, dueDate, notes }` (`Vaccines.jsx:48`). -/
structure VForm where
  name : String
  dueDate : String
  notes : String
  deriving Repr, DecidableEq
/-- Component state relevant to `handleAddOrUpdate`: the entries list, the
`editingId` (null = adding) and the form. -/
structure LocalVacUI where
  entries : List Entry
  editingId : Option String
  form : VForm
  deriving Repr, DecidableEq
/-- The empty form `{ name: "", dueDate: "", notes: "" }`. -/
def emptyVForm : VForm := ⟨"", "", ""⟩
/-- The edit branch of `handleAddOrUpdate` (`Vaccines.jsx:84`):
`s.map(it => it.id === editingId ? { ...it, ...form } : it)`.
Spreading `form` over `it` replaces exactly `name`, `dueDate`, `notes`
(the form's `dueDate` is stored as typed, without ISO re-encoding). -/
def applyEdit (es : List Entry) (editingId : String) (f : VForm) : List Entry :=
  es.map (fun it =>
    if it.id = editingId then
      { it with name := f.name, dueDate := f.dueDate, notes := f.notes }
    else it)
/-- `handleAddOrUpdate` (`Vaccines.jsx:80-98`). `newId` stands for the random
`uid()`, `nowIso` for `new Date().toISOString()`, and `isoOfDate` for
`d => new Date(d).toISOString()` applied to the form's due date.
Returns the new UI state and the `alert` message, if any. -/
def handleAddOrUpdate (newId nowIso : String) (isoOfDate : String → String)
    (st : LocalVacUI) : LocalVacUI × Option String :=
  if jsTrim st.form.name = "" ∨ st.form.dueDate = "" then
    (st, some "Please provide a name and due date.")
  else
    match st.editingId with
    | some eid =>
      ({ entries := applyEdit st.entries eid st.form,
         editingId := none, form := emptyVForm }, none)
    | none =>
      ({ entries :=
           { id := newId, name := jsTrim st.form.name,
             dueDate := isoOfDate st.form.dueDate, notes := st.form.notes,
             done := false, createdAt := nowIso } :: st.entries,
         editingId := none, form := emptyVForm }, none)
/-- `handleToggleDone` (`Vaccines.jsx:108-110`):
`s.map(it => it.id === id ? { ...it, done: !it.done } : it)`. -/
def handleToggleDone (es : List Entry) (id : String) : List Entry :=
  es.map (fun it => if it.id = id then { it with done := !it.done } else it)
/-- `handleDelete` (`Vaccines.jsx:112-115`): `confirm(...)` then filter.
`confirmAns` is the answer to the blocking prompt. -/
def handleDelete (confirmAns : Bool) (es : List Entry) (id : String) : List Entry :=
  if confirmAns then es.filter (fun it => it.id ≠ id) else es
/-- `upcoming` (`Vaccines.jsx:117-120`): pending entries, sorted by
`new Date(a.dueDate) - new Date(b.dueDate)` (stable), first three.
`dateMs` stands for `s => new Date(s).getTime()`. -/
def upcomingLocal (dateMs : String → Nat) (es : List Entry) : List Entry :=
  ((stableSortBy (fun a b => decide (dateMs a.dueDate ≤ dateMs b.dueDate))
      (es.filter (fun e => !e.done))).take 3)
/-- The fallback component's persistent view: the in-memory entries and the
localStorage slot. -/
structure LocalVacStorage where
  entries : List Entry
  slot : Option String
  deriving Repr, DecidableEq
/-- The fallback "Clear all" button's click handler (`Vaccines.jsx:199`):
`setEntries([]); localStorage.removeItem(STORAGE_KEY)` — it runs
unconditionally, with no `confirm` prompt. -/
def clearAllClick (_st : LocalVacStorage) : LocalVacStorage :=
  { entries := [], slot := none }
/-! ## Fallback persistence: `JSON.stringify` / `JSON.parse` round trip

The persist effect (`Vaccines.jsx:54-60`) writes
`JSON.stringify(entries)` to the localStorage slot; the lazy initializer
(`Vaccines.jsx:38-46`) reads the slot and returns `raw ? JSON.parse(raw) : []`,
catching decode errors as `[]`.

The printer below produces exactly the text `JSON.stringify` produces on an
array of entry objects (insertion-order keys `id, name, dueDate, notes, done,
createdAt`; `QuoteJSONString` escaping). The parser is `JSON.parse`
specialized to the grammar of that storage slot (the only shape the persist
path ever writes); on any other input it fails, which the initializer's
`catch` turns into the empty list. -/
/-- Opening brace character (written via its code point). -/
def lbrace : Char := Char.ofNat 123
/-- Closing brace character. -/
def rbrace : Char := Char.ofNat 125
/-- Lower-case hex digit for `n < 16`. -/
def hexDigitChar (n : Nat) : Char :=
  if n < 10 then Char.ofNat (48 + n) else Char.ofNat (87 + n)
/-- `QuoteJSONString` escaping of one character: `\"`, `\\`, the short
escapes for BS/TAB/LF/FF/CR, `\u00XX` for other control characters, and
the character itself otherwise. -/
def escChar (c : Char) : List Char :=
  if c = '"' then ['\\', '"']
  else if c = '\\' then ['\\', '\\']
  else if c = Char.ofNat 8 then ['\\', 'b']
  else if c = Char.ofNat 9 then ['\\', 't']
  else if c = Char.ofNat 10 then ['\\', 'n']
  else if c = Char.ofNat 12 then ['\\', 'f']
  else if c = Char.ofNat 13 then ['\\', 'r']
  else if c.toNat < 32 then
    ['\\', 'u', '0', '0', hexDigitChar (c.toNat / 16), hexDigitChar (c.toNat % 16)]
  else [c]
/-- Body of a JSON string literal (without the surrounding quotes). -/
def escString (s : String) : List Char :=
  (s.data.map escChar).flatten
/-- A full JSON string literal. -/
def quoteStr (s : String) : List Char :=
  '"' :: escString s ++ ['"']
/-- JSON text of a boolean. -/
def printBool (b : Bool) : List Char :=
  if b then "true".data else "false".data
/-- The key tokens of a serialized entry object, in the insertion order of
the object literal at `Vaccines.jsx:87-94`. -/
def tokEntryStart : List Char := lbrace :: "\"id\":".data
/-- `,"name":` -/
def tokName : List Char := ",\"name\":".data
/-- `,"dueDate":` -/
def tokDueDate : List Char := ",\"dueDate\":".data
/-- `,"notes":` -/
def tokNotes : List Char := ",\"notes\":".data
/-- `,"done":` -/
def tokDone : List Char := ",\"done\":".data
/-- `,"createdAt":` -/
def tokCreatedAt : List Char := ",\"createdAt\":".data
/-- `JSON.stringify` of one entry object: keys in insertion order
`id, name, dueDate, notes, done, createdAt` (`Vaccines.jsx:87-94`). -/
def printEntry (e : Entry) : List Char :=
  tokEntryStart ++ quoteStr e.id ++
  tokName ++ quoteStr e.name ++
  tokDueDate ++ quoteStr e.dueDate ++
  tokNotes ++ quoteStr e.notes ++
  tokDone ++ printBool e.done ++
  tokCreatedAt ++ quoteStr e.createdAt ++ [rbrace]
/-- Comma-separated entry objects (the body of the serialized array). -/
def printItems : List Entry → List Char
  | [] => []
  | [e] => printEntry e
  | e :: es => printEntry e ++ ',' :: printItems es
/-- `JSON.stringify(entries)`: the exact string written to the slot. -/
def stringifyEntries (es : List Entry) : String :=
  String.mk ('[' :: printItems es ++ [']'])
/-- The persist effect (`Vaccines.jsx:54-60`): the slot after write-through. -/
def persistSlot (es : List Entry) : Option String :=
  some (stringifyEntries es)
/-- Value of a hex digit character, if it is one. -/
def hexVal (c : Char) : Option Nat :=
  if 48 ≤ c.toNat ∧ c.toNat ≤ 57 then some (c.toNat - 48)
  else if 97 ≤ c.toNat ∧ c.toNat ≤ 102 then some (c.toNat - 87)
  else if 65 ≤ c.toNat ∧ c.toNat ≤ 70 then some (c.toNat - 55)
  else none
/-- Parse the body of a JSON string literal up to the closing quote,
undoing the escapes of `escChar` (plus `\/`, which JSON also allows);
returns the decoded characters and the rest of the input. -/
def parseStringBody : List Char → Option (List Char × List Char)
  | [] => none
  | c :: rest =>
    if c = '"' then some ([], rest)
    else if c = '\\' then
      match rest with
      | [] => none
      | e :: rest2 =>
        if e = '"' then (parseStringBody rest2).map (fun p => ('"' :: p.1, p.2))
        else if e = '\\' then (parseStringBody rest2).map (fun p => ('\\' :: p.1, p.2))
        else if e = '/' then (parseStringBody rest2).map (fun p => ('/' :: p.1, p.2))
        else if e = 'b' then (parseStringBody rest2).map (fun p => (Char.ofNat 8 :: p.1, p.2))
        else if e = 't' then (parseStringBody rest2).map (fun p => (Char.ofNat 9 :: p.1, p.2))
        else if e = 'n' then (parseStringBody rest2).map (fun p => (Char.ofNat 10 :: p.1, p.2))
        else if e = 'f' then (parseStringBody rest2).map (fun p => (Char.ofNat 12 :: p.1, p.2))
        else if e = 'r' then (parseStringBody rest2).map (fun p => (Char.ofNat 13 :: p.1, p.2))
        else if e = 'u' then
          match rest2 with
          | h1 :: h2 :: h3 :: h4 :: rest3 =>
            match hexVal h1, hexVal h2, hexVal h3, hexVal h4 with
            | some a, some b, some c2, some d =>
              (parseStringBody rest3).map
                (fun p => (Char.ofNat (4096 * a + 256 * b + 16 * c2 + d) :: p.1, p.2))
            | _, _, _, _ => none
          | _ => none
        else none
    else (parseStringBody rest).map (fun p => (c :: p.1, p.2))
/-- Parse a JSON string literal including its quotes. -/
def parseJsonString (l : List Char) : Option (String × List Char) :=
  match l with
  | [] => none
  | c :: rest =>
    if c = '"' then (parseStringBody rest).map (fun p => (String.mk p.1, p.2))
    else none
/-- Require a literal character sequence at the head of the input. -/
def expectChars : List Char → List Char → Option (List Char)
  | [], input => some input
  | _ :: _, [] => none
  | c :: cs, d :: ds => if c = d then expectChars cs ds else none
/-- Parse a JSON boolean literal. -/
def parseBool (l : List Char) : Option (Bool × List Char) :=
  match expectChars "true".data l with
  | some r => some (true, r)
  | none =>
    match expectChars "false".data l with
    | some r => some (false, r)
    | none => none
/-- Parse one entry object of the storage grammar. -/
def parseEntry (l : List Char) : Option (Entry × List Char) := do
  let l ← expectChars tokEntryStart l
  let (idv, l) ← parseJsonString l
  let l ← expectChars tokName l
  let (namev, l) ← parseJsonString l
  let l ← expectChars tokDueDate l
  let (duev, l) ← parseJsonString l
  let l ← expectChars tokNotes l
  let (notesv, l) ← parseJsonString l
  let l ← expectChars tokDone l
  let (donev, l) ← parseBool l
  let l ← expectChars tokCreatedAt l
  let (createdv, l) ← parseJsonString l
  let l ← expectChars [rbrace] l
  some (⟨idv, namev, duev, notesv, donev, createdv⟩, l)
/-- Parse a non-empty comma-separated sequence of entry objects followed by
the closing bracket (fuel-bounded; each item consumes input). -/
def parseItems : Nat → List Char → Option (List Entry × List Char)
  | 0, _ => none
  | fuel + 1, l => do
    let (e, l) ← parseEntry l
    match l with
    | c :: rest =>
      if c = ',' then (parseItems fuel rest).map (fun p => (e :: p.1, p.2))
      else if c = ']' then some ([e], rest)
      else none
    | [] => none
/-- `JSON.parse` specialized to the storage grammar: a whole input that is a
JSON array of entry objects. -/
def parseEntries (s : String) : Option (List Entry) :=
  match s.data with
  | [] => none
  | c :: rest =>
    if c = '[' then
      match rest with
      | [] => none
      | d :: rest2 =>
        if d = ']' then (if rest2 = [] then some [] else none)
        else
          (parseItems rest.length (d :: rest2)).bind
            (fun p => if p.2 = [] then some p.1 else none)
    else none
/-- The lazy initializer (`Vaccines.jsx:38-46`): read the slot; a missing or
empty slot is falsy and yields `[]`; a decode failure is caught (and logged)
and yields `[]`. -/
def hydrate (raw : Option String) : List Entry :=
  match raw with
  | none => []
  | some s =>
    if s = "" then []
    else
      match parseEntries s with
      | some es => es
      | none => []
/-! ## Vaccine planner, per-user Firestore variant

`Vaccines.jsx` (Firestore version): documents live at
`users/{uid}/vaccines/{docId}`; the component subscribes with
`query(colRef, orderBy("createdAt", "desc"))` and replaces `entries`
with the decoded snapshot (`Vaccines.jsx:322-364`). -/
/-- A raw vaccine document as stored in `users/{uid}/vaccines`. Optional
fields may be absent in a document; `createdAt` is a resolved server
timestamp in milliseconds (a snapshot ordered by `createdAt` only delivers
documents carrying the field, and the claims below are about settled
snapshots, after pending server timestamps have resolved). -/
structure VDoc where
  id : String
  name : Option String
  notes : Option String
  vet : Option String
  location : Option String
  batch : Option String
  done : Option Bool
  createdAt : Nat
  dueDate : Option Nat
  deriving Repr, DecidableEq
/-- A decoded entry of the per-user variant, the object built by the
snapshot handler (`Vaccines.jsx:335-353`): absent strings default to `""`,
`done` is coerced with `!!`, dates become plain date values. -/
structure REntry where
  id : String
  name : String
  notes : String
  vet : String
  location : String
  batch : String
  done : Bool
  createdAt : Nat
  dueDate : Option Nat
  deriving Repr, DecidableEq
/-- The snapshot handler's per-document decode (`Vaccines.jsx:335-353`). -/
def decodeVDoc (d : VDoc) : REntry :=
  { id := d.id
    name := d.name.getD ""
    notes := d.notes.getD ""
    vet := d.vet.getD ""
    location := d.location.getD ""
    batch := d.batch.getD ""
    done := d.done.getD false
    createdAt := d.createdAt
    dueDate := d.dueDate }
/-- `orderBy("createdAt", "desc")`: stable sort descending by `createdAt`. -/
def sortVDocsByCreatedAtDesc (docs : List VDoc) : List VDoc :=
  stableSortBy (fun a b => decide (b.createdAt ≤ a.createdAt)) docs
/-- The per-user store: each uid's `users/{uid}/vaccines` collection. -/
def VStore : Type := String → List VDoc
/-- The subscription effect (`Vaccines.jsx:322-364`): with no user the
entries are reset to `[]`; with a user, the mirror is the decoded snapshot
of `users/{uid}/vaccines` ordered by `createdAt` descending. -/
def vaccinesMirror (store : VStore) : Option String → List REntry
  | none => []
  | some uid => (sortVDocsByCreatedAtDesc (store uid)).map decodeVDoc
/-- A JSON-ish field value of a Firestore write payload. -/
inductive FVal where
  | s (v : String)
  | b (v : Bool)
  | ts (millis : Nat)
  | serverTs
  deriving Repr, DecidableEq
/-- A write issued against `users/{uid}/vaccines`. -/
inductive VaccineWrite where
  | addEntry (payload : List (String × FVal))
  | update (id : String) (payload : List (String × FVal))
  | delete (id : String)
  deriving Repr, DecidableEq
/-- The remote form state (`Vaccines.jsx:296-303`). -/
structure RForm where
  name : String
  dueDate : String
  notes : String
  vet : String
  location : String
  batch : String
  deriving Repr, DecidableEq
/-- The payload built by the remote `handleAddOrUpdate`
(`Vaccines.jsx:407-414`); `tsOfDate` stands for
`d => Timestamp.fromDate(new Date(d))`. -/
def remotePayload (tsOfDate : String → Nat) (f : RForm) : List (String × FVal) :=
  [("name", .s (jsTrim f.name)), ("dueDate", .ts (tsOfDate f.dueDate)),
   ("notes", .s f.notes), ("vet", .s f.vet),
   ("location", .s f.location), ("batch", .s f.batch)]
/-- The remote `handleAddOrUpdate` (`Vaccines.jsx:400-427`): login check,
then validation, then either `updateDoc` (edit) or `addDoc` (create).
Returns the writes issued to the store and the `alert` message, if any. -/
def handleAddOrUpdateRemote (user : Option String) (f : RForm)
    (editingId : Option String) (tsOfDate : String → Nat) :
    List VaccineWrite × Option String :=
  match user with
  | none => ([], some "Please login first.")
  | some _ =>
    if jsTrim f.name = "" ∨ f.dueDate = "" then
      ([], some "Please provide a name and due date.")
    else
      match editingId with
      | some eid => ([.update eid (remotePayload tsOfDate f)], none)
      | none =>
        ([.addEntry (remotePayload tsOfDate f ++
            [("done", .b false), ("createdAt", .serverTs)])], none)
/-- The remote `handleToggleDone` (`Vaccines.jsx:444-455`): find the entry
by id; if present, `updateDoc(doc(colRef, id), { done: !it.done })` — a
payload containing only the `done` field. -/
def handleToggleDoneRemote (user : Option String) (es : List REntry)
    (id : String) : List VaccineWrite :=
  match user with
  | none => []
  | some _ =>
    match es.find? (fun e => e.id = id) with
    | none => []
    | some it => [.update id [("done", .b (!it.done))]]
/-- Outcome of a delete handler: whether the remote delete call was issued,
the writes that took effect, the `alert` raised, and the mirror afterwards
(the handler itself never mutates the mirror; removal happens only when the
subscription delivers the next snapshot). -/
structure DeleteOutcome (ω α : Type) where
  requested : Bool
  applied : List ω
  alerted : Option String
  entries : List α
  deriving Repr, DecidableEq
/-- The remote `handleDelete` (`Vaccines.jsx:457-468`): user check, blocking
`confirm`, then `deleteDoc`; a failure is caught and alerted
(`err?.message || "Failed to delete"`). -/
def handleDeleteRemote (user : Option String) (confirmAns : Bool)
    (remote : Except String Unit) (es : List REntry) (id : String) :
    DeleteOutcome VaccineWrite REntry :=
  match user with
  | none => ⟨false, [], none, es⟩
  | some _ =>
    if confirmAns then
      match remote with
      | .ok _ => ⟨true, [.delete id], none, es⟩
      | .error msg => ⟨true, [], some msg, es⟩
    else ⟨false, [], none, es⟩
/-- The remote "Clear all" button (`Vaccines.jsx:635-646`): blocking
`confirm("Clear all vaccines for your account?")`, then one `deleteDoc` per
entry of the current mirror. -/
def clearAllRemote (confirmAns : Bool) (es : List REntry) : List VaccineWrite :=
  if confirmAns then es.map (fun e => .delete e.id) else []
/-- The remote `upcoming` memo (`Vaccines.jsx:470-477`): entries that are
pending and have a due date, sorted ascending by due date, first three. -/
def upcomingRemote (es : List REntry) : List REntry :=
  ((stableSortBy (fun a b => decide (a.dueDate.getD 0 ≤ b.dueDate.getD 0))
      (es.filter (fun e => !e.done && e.dueDate.isSome))).take 3)
/-! ## Health log page

`Health.jsx`: documents live in the flat `healthLogs` collection, each
carrying a `byUid` owner field; the subscription (`Health.jsx:46-79`) is
`query(collection(db,"healthLogs"), where("byUid","==",uid),
orderBy("createdAt","desc"), limit(200))`, and the handler stores the
documents as-is (`{ id, ...d.data() }`). -/
/-- A health-log document (`Health.jsx:90-102`). -/
structure HDoc where
  id : String
  byUid : Option String
  createdAt : Nat
  food : String
  water : Option Int
  vomit : String
  diarrhea : String
  activity : Option Int
  notes : String
  deriving Repr, DecidableEq
/-- The health-log subscription result (`Health.jsx:46-79`): owner filter,
descending `createdAt`, limit 200; the snapshot is stored unchanged. -/
def healthLogsMirror (db : List HDoc) (uid : String) : List HDoc :=
  ((stableSortBy (fun a b => decide (b.createdAt ≤ a.createdAt))
      (db.filter (fun d => d.byUid = some uid))).take 200)
/-- A delete issued against `healthLogs`. -/
inductive HealthWrite where
  | delete (id : String)
  deriving Repr, DecidableEq
/-- `deleteLog` (`Health.jsx:122-131`): blocking `confirm("Delete this
log?")`, then `deleteDoc`; a failure is caught and alerted with
`"Could not delete. Please try again."`. -/
def deleteLogHealth (confirmAns : Bool) (remote : Except String Unit)
    (logs : List HDoc) (id : String) : DeleteOutcome HealthWrite HDoc :=
  if confirmAns then
    match remote with
    | .ok _ => ⟨true, [.delete id], none, logs⟩
    | .error _ => ⟨true, [], some "Could not delete. Please try again.", logs⟩
  else ⟨false, [], none, logs⟩
/-! ## Lost/found report search

`Lost.jsx` (Firestore version): reports live in two flat collections,
`lostPets` and `foundPets`. `findMatches` normalizes the name and location
tokens, issues up to three filtered queries per collection (or one
unfiltered "most recent" query), concatenates every query's documents, and
sorts the merged list by `createdAt` descending. -/
/-- A lost/found report document (the fields `findMatches` touches:
`saveReport` stores `petName_lc`/`location_lc` as lowercased copies or
`null`, and `createdAt` as a server timestamp; the sort key is
`createdAt?.toMillis?.() || 0`, modelled as resolved milliseconds). -/
structure RDoc where
  id : String
  petName_lc : Option String
  location_lc : Option String
  createdAt : Nat
  deriving Repr, DecidableEq
/-- `normalize` (`Lost.jsx`): `(s || "").trim().toLowerCase()`. -/
def Lost.normalize (s : String) : String := jsToLower (jsTrim s)
/-- One Firestore query over a report collection:
`where` filter, `orderBy("createdAt","desc")`, `limit(lim)`. -/
def queryReports (col : List RDoc) (filt : RDoc → Bool) (lim : Nat) : List RDoc :=
  ((stableSortBy (fun a b => decide (b.createdAt ≤ a.createdAt)) (col.filter filt)).take lim)
/-- The batch list built by `run` inside `findMatches`: (name AND location),
then (location), then (name), each with limit 10; if neither token is
non-empty, a single unfiltered query with limit 12. -/
def searchBatches (col : List RDoc) (wantName wantLoc : String) : List (List RDoc) :=
  (if wantName ≠ "" ∧ wantLoc ≠ "" then
     [queryReports col
       (fun d => d.petName_lc = some wantName ∧ d.location_lc = some wantLoc) 10]
   else []) ++
  (if wantLoc ≠ "" then
     [queryReports col (fun d => d.location_lc = some wantLoc) 10]
   else []) ++
  (if wantName ≠ "" then
     [queryReports col (fun d => d.petName_lc = some wantName) 10]
   else []) ++
  (if wantName = "" ∧ wantLoc = "" then
     [queryReports col (fun _ => true) 12]
   else [])
/-- `run(colName)` inside `findMatches`: await all batches and push every
snapshot's documents into one list, in batch order. -/
def runSearch (col : List RDoc) (wantName wantLoc : String) : List RDoc :=
  (searchBatches col wantName wantLoc).flatten
/-- All queries issued by one `findMatches` invocation, over both
collections, in issue order. -/
def issuedQueries (lost found : List RDoc) (wantName wantLoc : String) :
    List (List RDoc) :=
  searchBatches lost wantName wantLoc ++ searchBatches found wantName wantLoc
/-- `findMatches` (`Lost.jsx`): normalize the two tokens, run both
collections' query batches, merge `[...lostItems, ...foundItems]` and sort
the combined list by `createdAt` descending (stable). -/
def findMatches (lost found : List RDoc) (petName location : String) : List RDoc :=
  stableSortBy (fun a b => decide (b.createdAt ≤ a.createdAt))
    (runSearch lost (Lost.normalize petName) (Lost.normalize location) ++
     runSearch found (Lost.normalize petName) (Lost.normalize location))
/-! ## Properties of the stable sort -/
theorem sInsert_perm (le : α → α → Bool) (a : α) (l : List α) :
    (sInsert le a l).Perm (a :: l) := by
  induction l with
  | nil => exact List.Perm.refl _
  | cons b l ih =>
    simp only [sInsert]
    split
    · exact List.Perm.refl _
    · exact ((ih.cons b).trans (List.Perm.swap a b l))
theorem stableSortBy_perm (le : α → α → Bool) (l : List α) :
    (stableSortBy le l).Perm l := by
  induction l with
  | nil => exact List.Perm.refl _
  | cons x xs ih => exact (sInsert_perm le x (stableSortBy le xs)).trans (ih.cons x)
theorem mem_stableSortBy {le : α → α → Bool} {l : List α} {a : α}
    (h : a ∈ stableSortBy le l) : a ∈ l :=
  (stableSortBy_perm le l).mem_iff.mp h
theorem pairwise_sInsert {le : α → α → Bool}
    (htrans : ∀ a b c, le a b = true → le b c = true → le a c = true)
    (htotal : ∀ a b, le a b = true ∨ le b a = true)
    (a : α) {l : List α} (hl : l.Pairwise (fun x y => le x y = true)) :
    (sInsert le a l).Pairwise (fun x y => le x y = true) := by
  induction l with
  | nil => simp [sInsert]
  | cons b l ih =>
    rcases hl with _ | ⟨hb, hl⟩
    simp only [sInsert]
    split
    · rename_i hab
      refine List.Pairwise.cons ?_ (List.Pairwise.cons hb hl)
      intro c hc
      rcases List.mem_cons.mp hc with rfl | hc
      · exact hab
      · exact htrans a b c hab (hb c hc)
    · rename_i hab
      have hba : le b a = true := by
        rcases htotal a b with h | h
        · exact absurd h hab
        · exact h
      refine List.Pairwise.cons ?_ (ih hl)
      intro c hc
      rcases List.mem_cons.mp ((sInsert_perm le a l).mem_iff.mp hc) with rfl | hc
      · exact hba
      · exact hb c hc
theorem pairwise_stableSortBy {le : α → α → Bool}
    (htrans : ∀ a b c, le a b = true → le b c = true → le a c = true)
    (htotal : ∀ a b, le a b = true ∨ le b a = true) (l : List α) :
    (stableSortBy le l).Pairwise (fun x y => le x y = true) := by
  induction l with
  | nil => exact List.Pairwise.nil
  | cons x xs ih => exact pairwise_sInsert htrans htotal x ih
/-! ## Evaluation sanity checks -/
-- quick sanity checks on the handlers
example :
    handleToggleDone [⟨"a", "Rabies", "d", "", false, "t"⟩] "a"
      = [⟨"a", "Rabies", "d", "", true, "t"⟩] := by decide
example :
    handleDelete false [⟨"a", "Rabies", "d", "", false, "t"⟩] "a"
      = [⟨"a", "Rabies", "d", "", false, "t"⟩] := by decide
example :
    (handleAddOrUpdate "x" "t" (fun s => s)
      ⟨[], none, ⟨"  ", "2025-01-01", ""⟩⟩).2
      = some "Please provide a name and due date." := by decide
example :
    (handleAddOrUpdate "x" "t" (fun s => s)
      ⟨[], none, ⟨"Rabies", "2025-01-01", "n"⟩⟩).1.entries
      = [⟨"x", "Rabies", "2025-01-01", "n", false, "t"⟩] := by decide
-- sanity: a concrete round trip, and decode-failure behaviour
example :
    hydrate (persistSlot [⟨"a1", "Rabies", "2025-01-01", "x", false, "t0"⟩])
      = [⟨"a1", "Rabies", "2025-01-01", "x", false, "t0"⟩] := by decide
example : hydrate (some "not json") = [] := by decide
example : hydrate none = [] := by decide
example :
    hydrate (persistSlot [⟨"a\"1", "Ra\\bies", "d", String.mk [Char.ofNat 7], true, ""⟩])
      = [⟨"a\"1", "Ra\\bies", "d", String.mk [Char.ofNat 7], true, ""⟩] := by decide
-- sanity checks
example :
    vaccinesMirror (fun _ => [⟨"d1", some "Rabies", none, none, none, none, some true, 5, some 9⟩]) none
      = [] := by decide
example :
    (handleToggleDoneRemote (some "u") [⟨"d1", "Rabies", "", "", "", "", false, 5, none⟩] "d1")
      = [.update "d1" [("done", .b true)]] := by decide
example :
    (handleDeleteRemote (some "u") false (.ok ()) [] "d1").applied = [] := by decide
-- sanity: both collections contribute, duplicates across variants survive
example :
    findMatches [⟨"l1", some "bruno", some "colombo", 5⟩]
      [⟨"f1", none, some "colombo", 7⟩] "" "Colombo"
      = [⟨"f1", none, some "colombo", 7⟩, ⟨"l1", some "bruno", some "colombo", 5⟩] := by
  decide
example :
    findMatches [⟨"l1", some "bruno", some "colombo", 5⟩] [] "Bruno" "Colombo"
      = [⟨"l1", some "bruno", some "colombo", 5⟩, ⟨"l1", some "bruno", some "colombo", 5⟩,
         ⟨"l1", some "bruno", some "colombo", 5⟩] := by decide
/-! ## Round-trip lemmas for the fallback persistence -/
theorem hexVal_hexDigitChar : ∀ n, n < 16 → hexVal (hexDigitChar n) = some n := by
  decide
theorem parseStringBody_escList (l r : List Char) :
    parseStringBody ((l.map escChar).flatten ++ '"' :: r) = some (l, r) := by
  induction l with
  | nil =>
    rw [parseStringBody.eq_def]
    simp
  | cons c cs ih =>
    simp only [List.map_cons, List.flatten_cons, List.append_assoc]
    by_cases h1 : c = '"'
    · subst h1
      rw [show escChar '"' = ['\\', '"'] from rfl]
      rw [List.cons_append, List.cons_append, List.nil_append]
      rw [parseStringBody.eq_def]
      simp [ih]
    · by_cases h2 : c = '\\'
      · subst h2
        rw [show escChar '\\' = ['\\', '\\'] from rfl]
        rw [List.cons_append, List.cons_append, List.nil_append]
        rw [parseStringBody.eq_def]
        simp [ih]
      · by_cases h3 : c = Char.ofNat 8
        · subst h3
          rw [show escChar (Char.ofNat 8) = ['\\', 'b'] from rfl]
          rw [List.cons_append, List.cons_append, List.nil_append]
          rw [parseStringBody.eq_def]
          simp [ih]
        · by_cases h4 : c = Char.ofNat 9
          · subst h4
            rw [show escChar (Char.ofNat 9) = ['\\', 't'] from rfl]
            rw [List.cons_append, List.cons_append, List.nil_append]
            rw [parseStringBody.eq_def]
            simp [ih]
          · by_cases h5 : c = Char.ofNat 10
            · subst h5
              rw [show escChar (Char.ofNat 10) = ['\\', 'n'] from rfl]
              rw [List.cons_append, List.cons_append, List.nil_append]
              rw [parseStringBody.eq_def]
              simp [ih]
            · by_cases h6 : c = Char.ofNat 12
              · subst h6
                rw [show escChar (Char.ofNat 12) = ['\\', 'f'] from rfl]
                rw [List.cons_append, List.cons_append, List.nil_append]
                rw [parseStringBody.eq_def]
                simp [ih]
              · by_cases h7 : c = Char.ofNat 13
                · subst h7
                  rw [show escChar (Char.ofNat 13) = ['\\', 'r'] from rfl]
                  rw [List.cons_append, List.cons_append, List.nil_append]
                  rw [parseStringBody.eq_def]
                  simp [ih]
                · by_cases h8 : c.toNat < 32
                  · have hdiv : c.toNat / 16 < 16 := by omega
                    have hmod : c.toNat % 16 < 16 := Nat.mod_lt _ (by omega)
                    rw [show escChar c
                        = ['\\', 'u', '0', '0', hexDigitChar (c.toNat / 16),
                           hexDigitChar (c.toNat % 16)] from by
                      simp only [escChar, if_neg h1, if_neg h2, if_neg h3,
                        if_neg h4, if_neg h5, if_neg h6, if_neg h7, if_pos h8]]
                    simp only [List.cons_append, List.nil_append]
                    rw [parseStringBody.eq_def]
                    simp only [hexVal_hexDigitChar _ hdiv, hexVal_hexDigitChar _ hmod]
                    simp [hexVal, ih, Nat.div_add_mod, Char.ofNat_toNat]
                  · rw [show escChar c = [c] from by
                      simp only [escChar, if_neg h1, if_neg h2, if_neg h3,
                        if_neg h4, if_neg h5, if_neg h6, if_neg h7, if_neg h8]]
                    simp only [List.cons_append, List.nil_append]
                    rw [parseStringBody.eq_def]
                    simp [h1, h2, ih]
theorem parseJsonString_quote (s : String) (r : List Char) :
    parseJsonString (quoteStr s ++ r) = some (s, r) := by
  rw [show quoteStr s ++ r = '"' :: (escString s ++ '"' :: r) from by
    simp [quoteStr, List.append_assoc]]
  rw [parseJsonString]
  simp only [if_pos rfl]
  rw [escString, parseStringBody_escList]
  cases s
  simp
theorem expectChars_append (lit r : List Char) :
    expectChars lit (lit ++ r) = some r := by
  induction lit with
  | nil => rfl
  | cons c cs ih =>
    rw [List.cons_append, expectChars]
    simp [ih]
theorem parseBool_print (b : Bool) (r : List Char) :
    parseBool (printBool b ++ r) = some (b, r) := by
  cases b
  · show parseBool ("false".data ++ r) = some (false, r)
    rw [parseBool]
    rw [show expectChars "true".data ("false".data ++ r) = none from rfl]
    rw [expectChars_append]
  · show parseBool ("true".data ++ r) = some (true, r)
    rw [parseBool]
    rw [expectChars_append]
theorem parseEntry_print (e : Entry) (r : List Char) :
    parseEntry (printEntry e ++ r) = some (e, r) := by
  simp only [printEntry, List.append_assoc]
  rw [parseEntry]
  simp only [expectChars_append, parseJsonString_quote, parseBool_print,
    Option.bind_eq_bind, Option.some_bind]
theorem printEntry_head (e : Entry) : ∃ t, printEntry e = lbrace :: t := by
  refine ⟨"\"id\":".data ++ quoteStr e.id ++
    tokName ++ quoteStr e.name ++
    tokDueDate ++ quoteStr e.dueDate ++
    tokNotes ++ quoteStr e.notes ++
    tokDone ++ printBool e.done ++
    tokCreatedAt ++ quoteStr e.createdAt ++ [rbrace], ?_⟩
  simp [printEntry, tokEntryStart, List.append_assoc]
theorem length_printItems (es : List Entry) : es.length ≤ (printItems es).length := by
  induction es with
  | nil => simp [printItems]
  | cons e es' ih =>
    obtain ⟨t, ht⟩ := printEntry_head e
    cases es' with
    | nil => simp [printItems, ht]
    | cons e2 tl =>
      simp only [printItems, List.length_append, List.length_cons] at *
      rw [ht]
      simp only [List.length_cons]
      omega
theorem parseItems_print (es : List Entry) (hne : es ≠ []) (r : List Char) :
    ∀ fuel, es.length ≤ fuel →
      parseItems fuel (printItems es ++ ']' :: r) = some (es, r) := by
  induction es with
  | nil => exact absurd rfl hne
  | cons e es' ih =>
    intro fuel hfuel
    cases fuel with
    | zero => simp at hfuel
    | succ f =>
      cases es' with
      | nil =>
        simp only [printItems, parseItems, parseEntry_print,
          Option.bind_eq_bind, Option.some_bind]
        simp
      | cons e2 tl =>
        simp only [printItems, List.append_assoc, List.cons_append]
        simp only [parseItems, parseEntry_print,
          Option.bind_eq_bind, Option.some_bind]
        have hrec := ih (by simp) f (by simp only [List.length_cons] at hfuel ⊢; omega)
        simp only [printItems] at hrec
        simp [hrec]
theorem parseEntries_stringify (es : List Entry) :
    parseEntries (stringifyEntries es) = some es := by
  cases es with
  | nil => decide
  | cons e es' =>
    obtain ⟨t, ht⟩ := printEntry_head e
    have hu : ∃ u, printItems (e :: es') ++ (']' : Char) :: ([] : List Char) = lbrace :: u := by
      cases es' with
      | nil => exact ⟨t ++ [']'], by simp [printItems, ht]⟩
      | cons a b =>
        exact ⟨t ++ ',' :: printItems (a :: b) ++ [']'],
          by simp [printItems, ht, List.append_assoc]⟩
    obtain ⟨u, hu⟩ := hu
    have hlen : (e :: es').length ≤ (printItems (e :: es') ++ [']'] : List Char).length := by
      have h1 := length_printItems (e :: es')
      simp only [List.length_append, List.length_cons, List.length_nil] at h1 ⊢
      omega
    have hlb : ¬ lbrace = ']' := by decide
    have hmk : ∀ l : List Char, (String.mk l).data = l := fun _ => rfl
    rw [stringifyEntries]
    simp only [parseEntries, hmk]
    split
    · rename_i habs
      exact absurd habs (by simp)
    · rename_i c rest hsc
      injection hsc with hc hrest
      subst hc
      subst hrest
      simp only [List.append_eq, if_true]
      rw [hu]
      split
      · rename_i habs2
        exact absurd habs2 (by simp)
      · rename_i d rest2 hsc2
        injection hsc2 with hd hrest2
        subst hd
        subst hrest2
        rw [if_neg hlb, ← hu]
        rw [parseItems_print (e :: es') (by simp) [] _ hlen]
        simp
/-! ## Claim theorems -/
/-- **C2** — In fallback mode, persisting any list of entries (the
write-through of `JSON.stringify(entries)` to the localStorage slot,
`Vaccines.jsx:54-60`) and rehydrating on a fresh load (the lazy initializer's
decode of the stored string, `Vaccines.jsx:38-46`) reproduces exactly the
same entries with identical field values: `hydrate` is a left inverse of
`persistSlot`. -/
theorem C2_fallback_roundtrip (es : List Entry) :
    hydrate (persistSlot es) = es := by
  have hne : ¬ stringifyEntries es = "" := by
    intro h
    have h2 := congrArg String.data h
    rw [stringifyEntries] at h2
    exact absurd h2 (by simp [show ("" : String).data = [] from rfl])
  rw [persistSlot, hydrate]
  rw [if_neg hne, parseEntries_stringify]
/-- **C3** — In fallback mode, a stored string that is absent (`none`, or the
falsy empty string) or that fails to decode yields the empty entries list on
initial hydration: the failure is swallowed (logged), never propagated, so
the view starts from `[]` rather than crashing on corrupt data. -/
theorem C3_corrupt_storage_hydrates_empty :
    hydrate none = [] ∧ hydrate (some "") = [] ∧
    ∀ raw : String, parseEntries raw = none → hydrate (some raw) = [] := by
  refine ⟨rfl, by decide, ?_⟩
  intro raw hraw
  rw [hydrate]
  by_cases h : raw = ""
  · rw [if_pos h]
  · rw [if_neg h, hraw]
/-- Witness for C3: the concrete corrupt string `"not json"` fails to decode
and hydrates to the empty list. -/
theorem C3_witness :
    parseEntries "not json" = none ∧ hydrate (some "not json") = [] :=
  ⟨by decide, C3_corrupt_storage_hydrates_empty.2.2 "not json" (by decide)⟩
/-- **C1** — Both variants of `handleAddOrUpdate` validate before writing:
if the name is empty after trimming or the due date is absent, the fallback
variant leaves the UI state (and hence the persisted slot, a pure function of
the entries) unchanged and raises the validation alert
(`Vaccines.jsx:82`); the per-user remote variant issues no write and raises
the same alert (`Vaccines.jsx:403`); and a write carrying an empty required
field is never issued at all. -/
theorem C1_validation_blocks_writes :
    (∀ (newId nowIso : String) (isoOfDate : String → String) (st : LocalVacUI),
      jsTrim st.form.name = "" ∨ st.form.dueDate = "" →
        (handleAddOrUpdate newId nowIso isoOfDate st).1 = st ∧
        persistSlot (handleAddOrUpdate newId nowIso isoOfDate st).1.entries
          = persistSlot st.entries ∧
        (handleAddOrUpdate newId nowIso isoOfDate st).2
          = some "Please provide a name and due date.") ∧
    (∀ (u : String) (f : RForm) (editingId : Option String) (tsOfDate : String → Nat),
      jsTrim f.name = "" ∨ f.dueDate = "" →
        handleAddOrUpdateRemote (some u) f editingId tsOfDate
          = ([], some "Please provide a name and due date.")) ∧
    (∀ (user : Option String) (f : RForm) (editingId : Option String)
        (tsOfDate : String → Nat),
      (handleAddOrUpdateRemote user f editingId tsOfDate).1 ≠ [] →
        ¬ jsTrim f.name = "" ∧ ¬ f.dueDate = "") := by
  refine ⟨?_, ?_, ?_⟩
  · intro newId nowIso isoOfDate st hval
    rw [handleAddOrUpdate, if_pos hval]
    exact ⟨rfl, rfl, rfl⟩
  · intro u f editingId tsOfDate hval
    simp only [handleAddOrUpdateRemote]
    rw [if_pos hval]
  · intro user f editingId tsOfDate hw
    by_cases hname : jsTrim f.name = ""
    · exfalso
      apply hw
      cases user with
      | none => rfl
      | some u =>
        simp only [handleAddOrUpdateRemote]
        rw [if_pos (Or.inl hname)]
    · by_cases hdue : f.dueDate = ""
      · exfalso
        apply hw
        cases user with
        | none => rfl
        | some u =>
          simp only [handleAddOrUpdateRemote]
          rw [if_pos (Or.inr hdue)]
      · exact ⟨hname, hdue⟩
/-- Witness for C1: a form whose name is only whitespace is rejected by both
variants, leaving state untouched and issuing no write. -/
theorem C1_witness :
    ((handleAddOrUpdate "x" "t0" (fun s => s)
        ⟨[], none, ⟨"  ", "2025-01-01", "n"⟩⟩).1
      = ⟨[], none, ⟨"  ", "2025-01-01", "n"⟩⟩) ∧
    (handleAddOrUpdateRemote (some "u") ⟨"  ", "2025-01-01", "", "", "", ""⟩
        none (fun _ => 0)
      = ([], some "Please provide a name and due date.")) :=
  ⟨(C1_validation_blocks_writes.1 "x" "t0" (fun s => s)
      ⟨[], none, ⟨"  ", "2025-01-01", "n"⟩⟩ (Or.inl (by decide))).1,
   C1_validation_blocks_writes.2.1 "u" ⟨"  ", "2025-01-01", "", "", "", ""⟩
      none (fun _ => 0) (Or.inl (by decide))⟩
/-- **C10** — The fallback "Clear all" button empties the entries and removes
the persisted key unconditionally — its handler never consults a `confirm`
prompt (`Vaccines.jsx:199`) — whereas per-record delete (`Vaccines.jsx:113`)
and the remote variant's "Clear all" (`Vaccines.jsx:637`) both do nothing
when the blocking confirmation is declined; when the remote clear-all is
confirmed it issues one delete per mirrored entry. -/
theorem C10_clear_all_contrast :
    (∀ st : LocalVacStorage, clearAllClick st = ⟨[], none⟩) ∧
    (∀ (es : List Entry) (id : String), handleDelete false es id = es) ∧
    (∀ es : List REntry, clearAllRemote false es = []) ∧
    (∀ es : List REntry, clearAllRemote true es = es.map (fun e => .delete e.id)) :=
  ⟨fun _ => rfl, fun _ _ => rfl, fun _ => rfl, fun _ => rfl⟩
/-- **C8** — Every single-record delete (fallback vaccine entry, remote
vaccine entry, health log) is guarded by a blocking `confirm` prompt: a
declined prompt leaves the entries and the store untouched and issues no
delete call; a delete call is issued only after a confirmed prompt; and a
failed remote call leaves the record visible (the mirror unchanged) and
surfaces an error alert. -/
theorem C8_delete_confirmation_and_failure :
    (∀ (es : List Entry) (id : String), handleDelete false es id = es) ∧
    (∀ (user : Option String) (remote : Except String Unit)
        (es : List REntry) (id : String),
      (handleDeleteRemote user false remote es id).requested = false ∧
      (handleDeleteRemote user false remote es id).applied = [] ∧
      (handleDeleteRemote user false remote es id).entries = es) ∧
    (∀ (user : Option String) (confirmAns : Bool) (remote : Except String Unit)
        (es : List REntry) (id : String),
      (handleDeleteRemote user confirmAns remote es id).requested = true →
        confirmAns = true) ∧
    (∀ (u : String) (es : List REntry) (id msg : String),
      (handleDeleteRemote (some u) true (.error msg) es id).entries = es ∧
      (handleDeleteRemote (some u) true (.error msg) es id).applied = [] ∧
      (handleDeleteRemote (some u) true (.error msg) es id).alerted = some msg) ∧
    (∀ (remote : Except String Unit) (logs : List HDoc) (id : String),
      deleteLogHealth false remote logs id
        = ⟨false, [], none, logs⟩) ∧
    (∀ (confirmAns : Bool) (remote : Except String Unit)
        (logs : List HDoc) (id : String),
      (deleteLogHealth confirmAns remote logs id).requested = true →
        confirmAns = true) ∧
    (∀ (logs : List HDoc) (id msg : String),
      (deleteLogHealth true (.error msg) logs id).entries = logs ∧
      (deleteLogHealth true (.error msg) logs id).alerted
        = some "Could not delete. Please try again.") := by
  refine ⟨fun _ _ => rfl, ?_, ?_, ?_, ?_, ?_, ?_⟩
  · intro user remote es id
    cases user <;> exact ⟨rfl, rfl, rfl⟩
  · intro user confirmAns remote es id h
    cases user with
    | none => simp [handleDeleteRemote] at h
    | some u =>
      cases confirmAns with
      | true => rfl
      | false => simp [handleDeleteRemote] at h
  · intro u es id msg
    exact ⟨rfl, rfl, rfl⟩
  · intro remote logs id
    rfl
  · intro confirmAns remote logs id h
    cases confirmAns with
    | true => rfl
    | false => simp [deleteLogHealth] at h
  · intro logs id msg
    exact ⟨rfl, rfl⟩
/-- Witness for C8: declining the prompt leaves a one-element list alone in
all three handlers, and a failing remote delete keeps the record visible
while alerting. -/
theorem C8_witness :
    (handleDelete false [⟨"a", "Rabies", "d", "", false, "t"⟩] "a"
        = [⟨"a", "Rabies", "d", "", false, "t"⟩]) ∧
    ((handleDeleteRemote (some "u") false (.ok ())
        [⟨"d1", "Rabies", "", "", "", "", false, 5, none⟩] "d1").entries
        = [⟨"d1", "Rabies", "", "", "", "", false, 5, none⟩]) ∧
    ((handleDeleteRemote (some "u") true (.error "network down")
        [⟨"d1", "Rabies", "", "", "", "", false, 5, none⟩] "d1").alerted
        = some "network down") ∧
    ((deleteLogHealth true (.error "boom")
        [⟨"h1", some "u", 3, "kibble", none, "no", "no", none, ""⟩] "h1").entries
        = [⟨"h1", some "u", 3, "kibble", none, "no", "no", none, ""⟩]) :=
  ⟨C8_delete_confirmation_and_failure.1 [⟨"a", "Rabies", "d", "", false, "t"⟩] "a",
   (C8_delete_confirmation_and_failure.2.1 (some "u") (.ok ())
      [⟨"d1", "Rabies", "", "", "", "", false, 5, none⟩] "d1").2.2,
   (C8_delete_confirmation_and_failure.2.2.2.1 "u"
      [⟨"d1", "Rabies", "", "", "", "", false, 5, none⟩] "d1" "network down").2.2,
   (C8_delete_confirmation_and_failure.2.2.2.2.2.2
      [⟨"h1", some "u", 3, "kibble", none, "no", "no", none, ""⟩] "h1" "boom").1⟩
/-- **C4** — Partition invariant. Every record delivered into the health-log
mirror satisfies the subscription's owner filter `byUid == uid`
(`Health.jsx:56-61`); the vaccine mirror is reset to `[]` the moment the
session identity becomes absent (`Vaccines.jsx:323-327`); the vaccine
subscription reads only the per-user path `users/{uid}/vaccines`, so the
mirror depends on (and draws every entry from) that user's collection
alone — no record of another identity can appear. -/
theorem C4_partition_invariant :
    (∀ (db : List HDoc) (uid : String) (d : HDoc),
        d ∈ healthLogsMirror db uid → d.byUid = some uid) ∧
    (∀ store : VStore, vaccinesMirror store none = []) ∧
    (∀ (s1 s2 : VStore) (uid : String), s1 uid = s2 uid →
        vaccinesMirror s1 (some uid) = vaccinesMirror s2 (some uid)) ∧
    (∀ (store : VStore) (uid : String) (e : REntry),
        e ∈ vaccinesMirror store (some uid) →
          ∃ d ∈ store uid, e = decodeVDoc d) := by
  refine ⟨?_, fun _ => rfl, ?_, ?_⟩
  · intro db uid d hd
    rw [healthLogsMirror] at hd
    have h1 : d ∈ stableSortBy (fun a b => decide (b.createdAt ≤ a.createdAt))
        (db.filter (fun d => decide (d.byUid = some uid))) :=
      List.mem_of_mem_take hd
    have h2 := mem_stableSortBy h1
    have h3 := (List.mem_filter.mp h2).2
    exact of_decide_eq_true h3
  · intro s1 s2 uid h
    show (stableSortBy _ (s1 uid)).map decodeVDoc
        = (stableSortBy _ (s2 uid)).map decodeVDoc
    rw [h]
  · intro store uid e he
    rw [vaccinesMirror] at he
    obtain ⟨d, hd, rfl⟩ := List.mem_map.mp he
    exact ⟨d, mem_stableSortBy hd, rfl⟩
/-- Witness for C4: a concrete store holding records of two identities; the
mirror of identity `"u"` contains only records owned by `"u"`, and the
vaccine mirror of an absent identity is empty. -/
theorem C4_witness :
    (⟨"h1", some "u", 3, "kibble", none, "no", "no", none, ""⟩ : HDoc)
      ∈ healthLogsMirror
          [⟨"h1", some "u", 3, "kibble", none, "no", "no", none, ""⟩,
           ⟨"h2", some "v", 5, "rice", none, "no", "no", none, ""⟩] "u" ∧
    (⟨"h1", some "u", 3, "kibble", none, "no", "no", none, ""⟩ : HDoc).byUid
      = some "u" ∧
    vaccinesMirror
      (fun _ => [⟨"d1", some "Rabies", none, none, none, none, none, 5, none⟩])
      none = [] :=
  ⟨by decide,
   C4_partition_invariant.1
     [⟨"h1", some "u", 3, "kibble", none, "no", "no", none, ""⟩,
      ⟨"h2", some "v", 5, "rice", none, "no", "no", none, ""⟩] "u"
     ⟨"h1", some "u", 3, "kibble", none, "no", "no", none, ""⟩ (by decide),
   C4_partition_invariant.2.1
     (fun _ => [⟨"d1", some "Rabies", none, none, none, none, none, 5, none⟩])⟩
theorem pairwise_gt_key_stableSortBy {α : Type} (key : α → Nat) (l : List α)
    (hdist : l.Pairwise (fun a b => key a ≠ key b)) :
    (stableSortBy (fun a b => decide (key b ≤ key a)) l).Pairwise
      (fun a b => key a > key b) := by
  have hsorted := @pairwise_stableSortBy _
      (fun a b => decide (key b ≤ key a))
      (fun a b c hab hbc => by
        simp only [decide_eq_true_eq] at *
        omega)
      (fun a b => by
        simp only [decide_eq_true_eq]
        omega)
      l
  have hdist2 : (stableSortBy (fun a b => decide (key b ≤ key a)) l).Pairwise
      (fun a b => key a ≠ key b) :=
    ((stableSortBy_perm _ l).pairwise_iff (fun h e => h e.symm)).mpr hdist
  exact (hsorted.and hdist2).imp (fun h => by
    obtain ⟨h1, h2⟩ := h
    simp only [decide_eq_true_eq] at h1
    omega)
/-- **C5** — Ordering invariant. Both per-user subscriptions order by
`createdAt` descending (`Vaccines.jsx:331`, `Health.jsx:59`) and their
snapshot handlers replace the mirror with the delivered list; since the
store assigns creation timestamps monotonically, any settled snapshot has
pairwise-distinct `createdAt` values, and under that hypothesis each mirror
is sorted strictly descending by creation timestamp. -/
theorem C5_ordering_invariant :
    (∀ (store : VStore) (uid : String),
      (store uid).Pairwise (fun a b => a.createdAt ≠ b.createdAt) →
      (vaccinesMirror store (some uid)).Pairwise
        (fun a b => a.createdAt > b.createdAt)) ∧
    (∀ (db : List HDoc) (uid : String),
      db.Pairwise (fun a b => a.createdAt ≠ b.createdAt) →
      (healthLogsMirror db uid).Pairwise
        (fun a b => a.createdAt > b.createdAt)) := by
  constructor
  · intro store uid hdist
    show ((stableSortBy _ (store uid)).map decodeVDoc).Pairwise _
    rw [List.pairwise_map]
    have h := pairwise_gt_key_stableSortBy VDoc.createdAt (store uid) hdist
    exact h.imp (fun hab => by simpa [decodeVDoc] using hab)
  · intro db uid hdist
    rw [healthLogsMirror]
    have hfil : (db.filter (fun d => decide (d.byUid = some uid))).Pairwise
        (fun a b => a.createdAt ≠ b.createdAt) :=
      hdist.sublist (List.filter_sublist db)
    have h := pairwise_gt_key_stableSortBy HDoc.createdAt _ hfil
    exact h.sublist (List.take_sublist _ _)
/-- Witness for C5: a concrete two-user store with distinct timestamps whose
vaccine mirror comes out strictly descending. -/
theorem C5_witness :
    (([⟨"d1", some "Rabies", none, none, none, none, none, 3, none⟩,
       ⟨"d2", some "DHPP", none, none, none, none, none, 7, none⟩] : List VDoc).Pairwise
        (fun a b => a.createdAt ≠ b.createdAt)) ∧
    (vaccinesMirror
        (fun _ => [⟨"d1", some "Rabies", none, none, none, none, none, 3, none⟩,
                   ⟨"d2", some "DHPP", none, none, none, none, none, 7, none⟩])
        (some "u")).Pairwise (fun a b => a.createdAt > b.createdAt) :=
  ⟨by decide,
   C5_ordering_invariant.1
     (fun _ => [⟨"d1", some "Rabies", none, none, none, none, none, 3, none⟩,
                ⟨"d2", some "DHPP", none, none, none, none, none, 7, none⟩])
     "u" (by decide)⟩
theorem map_keyed_update_eq_self (es : List Entry) (id : String)
    (g : Entry → Entry) (h : id ∉ es.map Entry.id) :
    es.map (fun it => if it.id = id then g it else it) = es := by
  induction es with
  | nil => rfl
  | cons a tl ih =>
    simp only [List.map_cons, List.mem_cons] at h ⊢
    push_neg at h
    rw [if_neg (fun he => h.1 he.symm), ih h.2]
/-- **C6** — Update frame property. Toggling `done` (`Vaccines.jsx:108-110`)
changes only the `done` flag of entries with the addressed id — their other
five fields and every other entry are untouched; the edit branch of
`handleAddOrUpdate` (`Vaccines.jsx:84`) overwrites only the form fields
(`name`, `dueDate`, `notes`), preserving `id`, `done`, `createdAt` and every
other entry; an id not present in the list leaves the whole list unchanged;
and the remote toggle (`Vaccines.jsx:444-455`) sends a payload containing
only the `done` field, keyed by the addressed id, or nothing at all when the
id is absent. -/
theorem C6_update_frame :
    (∀ (es : List Entry) (id : String),
        (handleToggleDone es id).length = es.length ∧
        (∀ i : Nat,
          ((handleToggleDone es id)[i]?.map Entry.id) = (es[i]?.map Entry.id) ∧
          ((handleToggleDone es id)[i]?.map Entry.name) = (es[i]?.map Entry.name) ∧
          ((handleToggleDone es id)[i]?.map Entry.dueDate) = (es[i]?.map Entry.dueDate) ∧
          ((handleToggleDone es id)[i]?.map Entry.notes) = (es[i]?.map Entry.notes) ∧
          ((handleToggleDone es id)[i]?.map Entry.createdAt) = (es[i]?.map Entry.createdAt)) ∧
        (∀ (i : Nat) (old : Entry), es[i]? = some old → old.id ≠ id →
          (handleToggleDone es id)[i]? = some old) ∧
        (id ∉ es.map Entry.id → handleToggleDone es id = es)) ∧
    (∀ (es : List Entry) (eid : String) (f : VForm),
        (applyEdit es eid f).length = es.length ∧
        (∀ i : Nat,
          ((applyEdit es eid f)[i]?.map Entry.id) = (es[i]?.map Entry.id) ∧
          ((applyEdit es eid f)[i]?.map Entry.done) = (es[i]?.map Entry.done) ∧
          ((applyEdit es eid f)[i]?.map Entry.createdAt) = (es[i]?.map Entry.createdAt)) ∧
        (∀ (i : Nat) (old : Entry), es[i]? = some old → old.id ≠ eid →
          (applyEdit es eid f)[i]? = some old) ∧
        (eid ∉ es.map Entry.id → applyEdit es eid f = es)) ∧
    (∀ (user : Option String) (es : List REntry) (id : String),
        (∀ w ∈ handleToggleDoneRemote user es id,
            ∃ b : Bool, w = .update id [("done", FVal.b b)]) ∧
        (id ∉ es.map REntry.id → handleToggleDoneRemote user es id = [])) := by
  refine ⟨?_, ?_, ?_⟩
  · intro es id
    refine ⟨by simp [handleToggleDone], ?_, ?_, ?_⟩
    · intro i
      rw [handleToggleDone, List.getElem?_map]
      cases h : es[i]? with
      | none => simp
      | some a =>
        refine ⟨?_, ?_, ?_, ?_, ?_⟩ <;>
          · simp only [Option.map_some']
            split <;> rfl
    · intro i old hold hne
      rw [handleToggleDone, List.getElem?_map, hold]
      simp only [Option.map_some']
      rw [if_neg hne]
    · exact map_keyed_update_eq_self es id _
  · intro es eid f
    refine ⟨by simp [applyEdit], ?_, ?_, ?_⟩
    · intro i
      rw [applyEdit, List.getElem?_map]
      cases h : es[i]? with
      | none => simp
      | some a =>
        refine ⟨?_, ?_, ?_⟩ <;>
          · simp only [Option.map_some']
            split <;> rfl
    · intro i old hold hne
      rw [applyEdit, List.getElem?_map, hold]
      simp only [Option.map_some']
      rw [if_neg hne]
    · exact map_keyed_update_eq_self es eid _
  · intro user es id
    constructor
    · intro w hw
      cases user with
      | none => simp [handleToggleDoneRemote] at hw
      | some u =>
        simp only [handleToggleDoneRemote] at hw
        cases hfind : es.find? (fun e => decide (e.id = id)) with
        | none => rw [hfind] at hw; simp at hw
        | some it =>
          rw [hfind] at hw
          simp only [List.mem_singleton] at hw
          exact ⟨!it.done, hw⟩
    · intro hnot
      cases user with
      | none => rfl
      | some u =>
        simp only [handleToggleDoneRemote]
        have : es.find? (fun e => decide (e.id = id)) = none := by
          rw [List.find?_eq_none]
          intro x hx
          simp only [decide_eq_true_eq]
          intro he
          exact hnot (List.mem_map.mpr ⟨x, hx, he⟩)
        rw [this]
/-- Witness for C6: toggling id `"a"` in a two-entry list flips only that
entry's `done` flag; an absent id leaves the list unchanged; the remote
toggle issues exactly one `done`-only update. -/
theorem C6_witness :
    (handleToggleDone
        [⟨"a", "Rabies", "d1", "", false, "t1"⟩, ⟨"b", "DHPP", "d2", "", false, "t2"⟩]
        "zzz"
      = [⟨"a", "Rabies", "d1", "", false, "t1"⟩, ⟨"b", "DHPP", "d2", "", false, "t2"⟩]) ∧
    ((handleToggleDone
        [⟨"a", "Rabies", "d1", "", false, "t1"⟩, ⟨"b", "DHPP", "d2", "", false, "t2"⟩]
        "a")[1]? = some ⟨"b", "DHPP", "d2", "", false, "t2"⟩) ∧
    (∃ b : Bool,
      VaccineWrite.update "a" [("done", FVal.b true)]
        = .update "a" [("done", FVal.b b)]) :=
  ⟨(C6_update_frame.1
      [⟨"a", "Rabies", "d1", "", false, "t1"⟩, ⟨"b", "DHPP", "d2", "", false, "t2"⟩]
      "zzz").2.2.2 (by decide),
   (C6_update_frame.1
      [⟨"a", "Rabies", "d1", "", false, "t1"⟩, ⟨"b", "DHPP", "d2", "", false, "t2"⟩]
      "a").2.2.1 1 ⟨"b", "DHPP", "d2", "", false, "t2"⟩ (by decide) (by decide),
   (C6_update_frame.2.2 (some "u")
      [⟨"a", "Rabies", "", "", "", "", false, 5, none⟩] "a").1
      (.update "a" [("done", FVal.b true)]) (by decide)⟩
/-- **C9** — The "Upcoming" preview (`Vaccines.jsx:117-120` and
`Vaccines.jsx:470-477`) holds at most three entries, all of them pending
(`done = false`, never a completed entry; in the remote variant also with a
present due date), sorted ascending by due date; and they are the soonest
due: together with the dropped remainder they exhaust the pending entries,
and each shown entry is due no later than any dropped one. -/
theorem C9_upcoming_preview :
    (∀ (dateMs : String → Nat) (es : List Entry),
      (upcomingLocal dateMs es).length ≤ 3 ∧
      (∀ e ∈ upcomingLocal dateMs es, e.done = false ∧ e ∈ es) ∧
      (upcomingLocal dateMs es).Pairwise
        (fun a b => dateMs a.dueDate ≤ dateMs b.dueDate) ∧
      (upcomingLocal dateMs es ++
          (stableSortBy (fun a b => decide (dateMs a.dueDate ≤ dateMs b.dueDate))
            (es.filter (fun e => !e.done))).drop 3).Perm
        (es.filter (fun e => !e.done)) ∧
      (∀ x ∈ upcomingLocal dateMs es,
       ∀ y ∈ (stableSortBy (fun a b => decide (dateMs a.dueDate ≤ dateMs b.dueDate))
            (es.filter (fun e => !e.done))).drop 3,
         dateMs x.dueDate ≤ dateMs y.dueDate)) ∧
    (∀ es : List REntry,
      (upcomingRemote es).length ≤ 3 ∧
      (∀ e ∈ upcomingRemote es, e.done = false ∧ e.dueDate.isSome ∧ e ∈ es) ∧
      (upcomingRemote es).Pairwise
        (fun a b => a.dueDate.getD 0 ≤ b.dueDate.getD 0) ∧
      (upcomingRemote es ++
          (stableSortBy (fun a b => decide (a.dueDate.getD 0 ≤ b.dueDate.getD 0))
            (es.filter (fun e => !e.done && e.dueDate.isSome))).drop 3).Perm
        (es.filter (fun e => !e.done && e.dueDate.isSome)) ∧
      (∀ x ∈ upcomingRemote es,
       ∀ y ∈ (stableSortBy (fun a b => decide (a.dueDate.getD 0 ≤ b.dueDate.getD 0))
            (es.filter (fun e => !e.done && e.dueDate.isSome))).drop 3,
         x.dueDate.getD 0 ≤ y.dueDate.getD 0)) := by
  constructor
  · intro dateMs es
    have hsorted := @pairwise_stableSortBy _
        (fun a b : Entry => decide (dateMs a.dueDate ≤ dateMs b.dueDate))
        (fun a b c hab hbc => by
          simp only [decide_eq_true_eq] at *; omega)
        (fun a b => by simp only [decide_eq_true_eq]; omega)
        (es.filter (fun e => !e.done))
    refine ⟨?_, ?_, ?_, ?_, ?_⟩
    · simp [upcomingLocal]
    · intro e he
      have h1 := mem_stableSortBy (List.mem_of_mem_take he)
      have h2 := List.mem_filter.mp h1
      exact ⟨by simpa using h2.2, h2.1⟩
    · exact (hsorted.sublist (List.take_sublist _ _)).imp
        (fun h => by simpa using h)
    · rw [upcomingLocal, List.take_append_drop]
      exact stableSortBy_perm _ _
    · intro x hx y hy
      have h := (List.pairwise_append.mp
        (by rw [upcomingLocal, List.take_append_drop]; exact hsorted)).2.2 x hx y hy
      simpa using h
  · intro es
    have hsorted := @pairwise_stableSortBy _
        (fun a b : REntry => decide (a.dueDate.getD 0 ≤ b.dueDate.getD 0))
        (fun a b c hab hbc => by
          simp only [decide_eq_true_eq] at *; omega)
        (fun a b => by simp only [decide_eq_true_eq]; omega)
        (es.filter (fun e => !e.done && e.dueDate.isSome))
    refine ⟨?_, ?_, ?_, ?_, ?_⟩
    · simp [upcomingRemote]
    · intro e he
      have h1 := mem_stableSortBy (List.mem_of_mem_take he)
      have h2 := List.mem_filter.mp h1
      have h3 := h2.2
      simp only [Bool.and_eq_true, Bool.not_eq_true'] at h3
      exact ⟨h3.1, h3.2, h2.1⟩
    · exact (hsorted.sublist (List.take_sublist _ _)).imp
        (fun h => by simpa using h)
    · rw [upcomingRemote, List.take_append_drop]
      exact stableSortBy_perm _ _
    · intro x hx y hy
      have h := (List.pairwise_append.mp
        (by rw [upcomingRemote, List.take_append_drop]; exact hsorted)).2.2 x hx y hy
      simpa using h
/-- Witness for C9: a four-entry list (one done) whose preview is the three
soonest pending entries, ascending. -/
theorem C9_witness :
    ((upcomingLocal (fun s => s.length)
        [⟨"a", "A", "1111", "", false, "t"⟩, ⟨"b", "B", "11", "", false, "t"⟩,
         ⟨"c", "C", "111", "", true, "t"⟩, ⟨"d", "D", "1", "", false, "t"⟩]).length ≤ 3) ∧
    (∀ e ∈ upcomingLocal (fun s => s.length)
        [⟨"a", "A", "1111", "", false, "t"⟩, ⟨"b", "B", "11", "", false, "t"⟩,
         ⟨"c", "C", "111", "", true, "t"⟩, ⟨"d", "D", "1", "", false, "t"⟩],
      e.done = false) :=
  ⟨(C9_upcoming_preview.1 (fun s => s.length)
      [⟨"a", "A", "1111", "", false, "t"⟩, ⟨"b", "B", "11", "", false, "t"⟩,
       ⟨"c", "C", "111", "", true, "t"⟩, ⟨"d", "D", "1", "", false, "t"⟩]).1,
   fun e he =>
     ((C9_upcoming_preview.1 (fun s => s.length)
      [⟨"a", "A", "1111", "", false, "t"⟩, ⟨"b", "B", "11", "", false, "t"⟩,
       ⟨"c", "C", "111", "", true, "t"⟩, ⟨"d", "D", "1", "", false, "t"⟩]).2.1 e he).1⟩
/-- **C7** — Cross-collection search. The result list delivered to the view
by `findMatches` is a permutation of the concatenation of the documents of
every issued query over both collections (`lostPets` and `foundPets`),
sorted descending by creation timestamp; the per-document count equality
shows that no de-duplication happens across a collection's query variants —
a document returned by several variants appears that many times. -/
theorem C7_search_merge (lost found : List RDoc) (petName location : String) :
    (findMatches lost found petName location).Perm
      ((issuedQueries lost found (Lost.normalize petName)
          (Lost.normalize location)).flatten) ∧
    (findMatches lost found petName location).Pairwise
      (fun a b => b.createdAt ≤ a.createdAt) ∧
    (∀ d : RDoc,
      (findMatches lost found petName location).count d
        = ((issuedQueries lost found (Lost.normalize petName)
            (Lost.normalize location)).map (fun q => q.count d)).sum) := by
  have hperm : (findMatches lost found petName location).Perm
      ((issuedQueries lost found (Lost.normalize petName)
          (Lost.normalize location)).flatten) := by
    rw [issuedQueries, List.flatten_append]
    exact stableSortBy_perm _ _
  refine ⟨hperm, ?_, ?_⟩
  · have h := @pairwise_stableSortBy _
        (fun a b : RDoc => decide (b.createdAt ≤ a.createdAt))
        (fun a b c hab hbc => by
          simp only [decide_eq_true_eq] at *; omega)
        (fun a b => by simp only [decide_eq_true_eq]; omega)
        (runSearch lost (Lost.normalize petName) (Lost.normalize location) ++
         runSearch found (Lost.normalize petName) (Lost.normalize location))
    exact h.imp (fun hab => by simpa using hab)
  · intro d
    rw [hperm.count_eq, List.count_flatten]
